import Mathlib

/-!
# Verification of the dnd-scribe job scheduler (`src/jobs.py`, `src/pipeline.py`)

Shallow embedding of the asynchronous job manager of `src/jobs.py` and the
speaker-name substitution of `src/pipeline.py`, with theorems settling the
spec's claims about admission control, the job lifecycle state machine,
progress monotonicity, checkpoint submission, snapshot reads, failure
handling and the transcript-payload lifetime.

Python dictionaries are embedded as insertion-ordered association lists
(`dictGet` / `dictInsert` reproduce `dict.get` and `d[k] = v`, including
in-place overwrite of an existing key and append of a new one).  Machine
integers are `Int`.  `raise` is `Except.error` carrying the message string.
-/

/-! ## Job lifecycle states (`JobStatus`, jobs.py lines 20-31) -/

inductive JobStatus
  | queued
  | loading_model
  | loading_audio
  | transcribing
  | aligning
  | diarizing
  | awaiting_speakers
  | saving
  | generating_recap
  | completed
  | failed
deriving DecidableEq, Repr

/-- `job.status not in (JobStatus.COMPLETED, JobStatus.FAILED)`
(the admission check of jobs.py line 77). -/
def nonTerminal (s : JobStatus) : Bool :=
  !(s == JobStatus.completed || s == JobStatus.failed)

/-! ## Python dictionaries as insertion-ordered association lists -/

/-- `d.get(k)` : first (unique) binding of `k`, if any. -/
def dictGet {κ α : Type} [BEq κ] (l : List (κ × α)) (k : κ) : Option α :=
  (l.find? (fun p => p.1 == k)).map (fun p => p.2)

/-- `d[k] = v` : overwrite in place when `k` is present (keeping insertion
order), append when absent — CPython dict assignment semantics. -/
def dictInsert {κ α : Type} [BEq κ] (l : List (κ × α)) (k : κ) (v : α) :
    List (κ × α) :=
  if l.any (fun p => p.1 == k) then
    l.map (fun p => if p.1 == k then (k, v) else p)
  else
    l ++ [(k, v)]

/-! ## Transcripts and speaker-name substitution (`pipeline.py`) -/

/-- One transcript segment, with the fields `apply_speaker_names` touches:
the optional anonymous `speaker` label (a missing key in the Python dict is
`none`), the text, and the `speaker_name` field the substitution writes. -/
structure Segment where
  speaker : Option String := none
  text : String := ""
  speaker_name : Option String := none
deriving DecidableEq, Repr

structure Transcript where
  segments : List Segment
deriving DecidableEq, Repr

/-- Speaker Name Map: anonymous label → chosen display name. -/
abbrev SpeakerMap : Type := List (String × String)

/-- `pipeline.apply_speaker_names` (pipeline.py lines 158-163):
for each segment, `speaker_id = segment.get("speaker", "UNKNOWN")` and
`segment["speaker_name"] = speaker_map.get(speaker_id, speaker_id)`.
The Python version mutates the transcript in place and returns it; the
embedding returns the resulting value. -/
def apply_speaker_names (transcript : Transcript) (speaker_map : SpeakerMap) :
    Transcript :=
  { segments := transcript.segments.map (fun segment =>
      let speaker_id := segment.speaker.getD "UNKNOWN"
      { segment with
        speaker_name := some ((dictGet speaker_map speaker_id).getD speaker_id) }) }

/-! ## Job records and the manager's shared state (`jobs.py`) -/

/-- The scheduler never reads into the configuration snapshot, so a config
is embedded as a generic string-keyed dictionary. -/
abbrev Config : Type := List (String × String)

/-- The Speaker Sample Set is produced by the external
`pipeline.get_speaker_samples` call and never inspected by the scheduler;
it is embedded as its top-level shape, label → total segment count. -/
abbrev Samples : Type := List (String × Nat)

/-- The `Job` dataclass (jobs.py lines 45-59).  `created_at` is the creation
timestamp (an abstract tick). -/
structure Job where
  id : String
  audio_path : String
  session_dir : String
  session_name : String
  config : Config
  skip_recap : Bool := false
  status : JobStatus := JobStatus.queued
  progress_message : String := ""
  progress_percent : Int := 0
  error : Option String := none
  transcript : Option Transcript := none
  speaker_samples : Option Samples := none
  created_at : Nat := 0
deriving DecidableEq

/-- The `JobManager`'s shared mutable state (jobs.py lines 65-69): the job
table, the per-job checkpoint events (`True` = set), and the per-job
speaker maps.  The lock serializes every access, so the sequential
functions below are the manager's operations as observed between lock
acquisitions. -/
structure ManagerState where
  jobs : List (String × Job)
  speaker_events : List (String × Bool)
  speaker_maps : List (String × SpeakerMap)
deriving DecidableEq

def ManagerState.initial : ManagerState :=
  { jobs := [], speaker_events := [], speaker_maps := [] }

/-- The admission check of `create_job` (jobs.py lines 76-78): is any job
in the table in a non-terminal state? -/
def hasActiveJob (jobs : List (String × Job)) : Bool :=
  jobs.any (fun p => nonTerminal p.2.status)

/-- The conflict message of jobs.py line 78. -/
def conflictMsg : String :=
  "A job is already running. Only one transcription at a time."

/-- The `Job(...)` constructor call of jobs.py lines 81-88: a fresh record
with the given inputs and every defaulted field at its default
(status `QUEUED`, empty message, percent 0, no error/transcript/samples). -/
def mkJob (job_id : String) (audio_path : String) (session_name : String)
    (session_dir : String) (config : Config) (skip_recap : Bool) (now : Nat) :
    Job :=
  { id := job_id
    audio_path := audio_path
    session_dir := session_dir
    session_name := session_name
    config := config
    skip_recap := skip_recap
    created_at := now }

/-- The second locked section of `create_job` (jobs.py lines 90-92): insert
the record into the job table and allocate its (unset) checkpoint event. -/
def createInsert (st : ManagerState) (job_id : String) (job : Job) :
    ManagerState :=
  { st with
      jobs := dictInsert st.jobs job_id job
      speaker_events := dictInsert st.speaker_events job_id false }

/-- `JobManager.create_job` (jobs.py lines 71-96), run to completion with
no interference: the admission check, then allocation of the `Job` record
and of its checkpoint event, insertion of both into the tables, and return
of the job id.  `job_id` stands for the fresh `uuid.uuid4().hex[:12]` and
`now` for `datetime.now()`. -/
def create_job (st : ManagerState) (job_id : String) (audio_path : String)
    (session_name : String) (session_dir : String) (config : Config)
    (skip_recap : Bool) (now : Nat) : Except String (ManagerState × String) :=
  if hasActiveJob st.jobs then
    Except.error conflictMsg
  else
    Except.ok
      (createInsert st job_id
        (mkJob job_id audio_path session_name session_dir config skip_recap now),
        job_id)

/-- `JobManager.get_job` (jobs.py lines 98-100): `self._jobs.get(job_id)`
under the lock.  Read-only: the state is untouched. -/
def get_job (st : ManagerState) (job_id : String) : Option Job :=
  dictGet st.jobs job_id

/-- `JobManager.list_jobs` (jobs.py lines 112-114):
`list(self._jobs.values())` under the lock. -/
def list_jobs (st : ManagerState) : List Job :=
  st.jobs.map (fun p => p.2)

/-- The invalid-state message of jobs.py line 107. -/
def invalidStateMsg (job_id : String) : String :=
  "Job " ++ job_id ++ " is not awaiting speaker names"

/-- Setting `self._speaker_events[job_id]` (jobs.py line 110): a plain
`dict[...]` lookup that raises `KeyError` (`none` here) when the key is
absent, then `.set()` on the event. -/
def eventSet (events : List (String × Bool)) (k : String) :
    Option (List (String × Bool)) :=
  if events.any (fun p => p.1 == k) then
    some (events.map (fun p => if p.1 == k then (k, true) else p))
  else
    none

/-- `JobManager.set_speaker_names` (jobs.py lines 102-110): under the lock,
reject (raising `ValueError`, before any mutation) unless the job exists
and is `AWAITING_SPEAKERS`; otherwise record the speaker map, update the
job's `skip_recap`, and — after releasing the lock — set the job's
checkpoint event (an unguarded dict lookup: `KeyError` if absent). -/
def set_speaker_names (st : ManagerState) (job_id : String)
    (speaker_map : SpeakerMap) (skip_recap : Bool) :
    Except String ManagerState :=
  match dictGet st.jobs job_id with
  | none => Except.error (invalidStateMsg job_id)
  | some job =>
    if job.status != JobStatus.awaiting_speakers then
      Except.error (invalidStateMsg job_id)
    else
      match eventSet st.speaker_events job_id with
      | none => Except.error "KeyError"
      | some events =>
        Except.ok
          { st with
            speaker_maps := dictInsert st.speaker_maps job_id speaker_map
            jobs := dictInsert st.jobs job_id { job with skip_recap := skip_recap }
            speaker_events := events }

/-! ## The background worker `JobManager._run` (jobs.py lines 116-176)

The worker mutates the shared `Job` record only inside `with self._lock`
blocks (the progress callback, the AWAITING_SPEAKERS store, the SAVING /
GENERATING_RECAP / COMPLETED updates, and the failure handler), so the
record states any reader can observe form the sequence of values after
each locked write.  `runSnaps` is that sequence for a run that completes,
`failSnaps` for a run interrupted by an exception after a given number of
writes.  The worker reads `job.skip_recap` at line 157, after
`set_speaker_names` may have updated it; the trace takes that effective
value as a parameter, as it takes the transcript and sample set returned
by the external pipeline calls. -/

/-- The mutable fields of the shared `Job` record, as seen between the
worker's locked writes. -/
structure Snapshot where
  status : JobStatus := JobStatus.queued
  progress_message : String := ""
  progress_percent : Int := 0
  error : Option String := none
  transcript : Option Transcript := none
  speaker_samples : Option Samples := none
deriving DecidableEq

/-- One invocation of the progress callback: a named stage, a message and
a percent, as delivered by `pipeline.transcribe_audio`. -/
structure ProgressEvent where
  stage : String
  message : String
  percent : Int
deriving DecidableEq, Repr

/-- `_STAGE_MAP` (jobs.py lines 35-42) as `dict.get`: pipeline stage name
to `JobStatus`, `none` for an unknown stage. -/
def stageMap (stage : String) : Option JobStatus :=
  if stage == "loading_model" then some JobStatus.loading_model
  else if stage == "loading_audio" then some JobStatus.loading_audio
  else if stage == "transcribing" then some JobStatus.transcribing
  else if stage == "aligning" then some JobStatus.aligning
  else if stage == "diarizing" then some JobStatus.diarizing
  else if stage == "done_transcription" then some JobStatus.awaiting_speakers
  else none

/-- `progress_cb` (jobs.py lines 119-123): under the lock, set the status
from the stage name (`_STAGE_MAP.get(stage, job.status)` — unknown stage
leaves the status unchanged) and overwrite message and percent. -/
def applyCallback (s : Snapshot) (e : ProgressEvent) : Snapshot :=
  { s with
      status := (stageMap e.stage).getD s.status
      progress_message := e.message
      progress_percent := e.percent }

/-- The record as freshly created by `create_job` (all `Job` defaults). -/
def snapInit : Snapshot := {}

/-- Successive record states produced by a sequence of progress callbacks. -/
def cbSnaps (s : Snapshot) : List ProgressEvent → List Snapshot
  | [] => []
  | e :: rest =>
    let s2 := applyCallback s e
    s2 :: cbSnaps s2 rest

/-- The locked store at the end of phase 1 (jobs.py lines 132-137):
transcript and sample set stored, state `AWAITING_SPEAKERS`, the waiting
message, percent 95 — one atomic write. -/
def awaitSnap (s : Snapshot) (t : Transcript) (smp : Samples) : Snapshot :=
  { s with
      transcript := some t
      speaker_samples := some smp
      status := JobStatus.awaiting_speakers
      progress_message := "Waiting for speaker identification..."
      progress_percent := 95 }

/-- jobs.py lines 146-149: state `SAVING`, percent 96. -/
def savingSnap (s : Snapshot) : Snapshot :=
  { s with
      status := JobStatus.saving
      progress_message := "Saving transcript..."
      progress_percent := 96 }

/-- jobs.py lines 158-161: state `GENERATING_RECAP`, percent 97. -/
def recapSnap (s : Snapshot) : Snapshot :=
  { s with
      status := JobStatus.generating_recap
      progress_message := "Generating recap..."
      progress_percent := 97 }

/-- jobs.py lines 166-170: state `COMPLETED`, percent 100, and the stored
transcript cleared (`job.transcript = None  # Free memory`). -/
def completedSnap (s : Snapshot) : Snapshot :=
  { s with
      status := JobStatus.completed
      progress_message := "Done!"
      progress_percent := 100
      transcript := none }

/-- The failure handler (jobs.py lines 172-176): state `FAILED`, the error
field `f"{type(e).__name__}: {e}\n{traceback.format_exc()}"`, and the
short `f"Failed: {e}"` message — all other fields untouched. -/
def failSnap (s : Snapshot) (ename : String) (emsg : String) (tb : String) :
    Snapshot :=
  { s with
      status := JobStatus.failed
      error := some (ename ++ ": " ++ emsg ++ "\n" ++ tb)
      progress_message := "Failed: " ++ emsg }

/-- Phase 2's locked writes after the checkpoint: `SAVING`, then
`GENERATING_RECAP` unless the job's (possibly updated) skip-recap flag is
set, then `COMPLETED`. -/
def phase2Snaps (sA : Snapshot) (skip_recap : Bool) : List Snapshot :=
  let sS := savingSnap sA
  if skip_recap then [sS, completedSnap sS]
  else [sS, recapSnap sS, completedSnap (recapSnap sS)]

/-- All record states observable across a successful run of `_run`:
creation, each progress callback, the AWAITING_SPEAKERS store, and
phase 2. -/
def runSnaps (evs : List ProgressEvent) (t : Transcript) (smp : Samples)
    (skip_recap : Bool) : List Snapshot :=
  let cbs := cbSnaps snapInit evs
  let sA := awaitSnap (cbs.getLastD snapInit) t smp
  snapInit :: cbs ++ sA :: phase2Snaps sA skip_recap

/-- All record states observable across a run of `_run` interrupted by an
exception once `k` of the successful run's writes have happened
(`1 ≤ k < (runSnaps ...).length`, since the record exists from creation
and nothing in the `try` block runs after the COMPLETED write): the first
`k` states, then the failure handler's write. -/
def failSnaps (evs : List ProgressEvent) (t : Transcript) (smp : Samples)
    (skip_recap : Bool) (k : Nat) (ename : String) (emsg : String)
    (tb : String) : List Snapshot :=
  let pre := (runSnaps evs t smp skip_recap).take k
  pre ++ [failSnap (pre.getLastD snapInit) ename emsg tb]

/-- The progress reports `pipeline.transcribe_audio` emits, in source
order (pipeline.py lines 65-105), with the interpolated strings as
parameters: `loading_model` (2), `loading_audio` (5), `transcribing` (10),
`aligning` (72), `diarizing` (82 with a HuggingFace token, 95 - skipping -
without), `done_transcription` (95). -/
def pipelineEvents (model_name : String) (device : String)
    (compute_type : String) (audio_path : String) (vocab_note : String)
    (hf_token : Bool) : List ProgressEvent :=
  [ { stage := "loading_model"
      message := "Loading Whisper model: " ++ model_name ++ " (" ++ device
        ++ ", " ++ compute_type ++ ")"
      percent := 2 }
  , { stage := "loading_audio"
      message := "Loading audio: " ++ audio_path
      percent := 5 }
  , { stage := "transcribing"
      message := "Transcribing audio..." ++ vocab_note
        ++ " (this may take a while)"
      percent := 10 }
  , { stage := "aligning", message := "Aligning transcript...", percent := 72 } ]
  ++ (if hf_token then
        [ { stage := "diarizing"
            message := "Running speaker diarization..."
            percent := 82 } ]
      else
        [ { stage := "diarizing"
            message := "No HuggingFace token - skipping speaker diarization"
            percent := 95 } ])
  ++ [ { stage := "done_transcription"
         message := "Transcription complete"
         percent := 95 } ]

/-! ## The lifecycle state graph of spec section 4.1 -/

/-- The stage names of the documented progress contract, in the order the
Transcript Processor emits them. -/
def documentedStages : List String :=
  ["loading_model", "loading_audio", "transcribing", "aligning",
   "diarizing", "done_transcription"]

/-- The spec's forward path, with `GENERATING_RECAP` present exactly when
the skip-recap flag is off. -/
def successPath (skip_recap : Bool) : List JobStatus :=
  [JobStatus.queued, JobStatus.loading_model, JobStatus.loading_audio,
   JobStatus.transcribing, JobStatus.aligning, JobStatus.diarizing,
   JobStatus.awaiting_speakers, JobStatus.saving]
  ++ (if skip_recap then [] else [JobStatus.generating_recap])
  ++ [JobStatus.completed]

/-- The edges of the lifecycle graph: the forward chain, the skip edge
`SAVING → COMPLETED`, and `FAILED` from every non-terminal state. -/
def edge : JobStatus → JobStatus → Bool
  | JobStatus.queued, JobStatus.loading_model => true
  | JobStatus.loading_model, JobStatus.loading_audio => true
  | JobStatus.loading_audio, JobStatus.transcribing => true
  | JobStatus.transcribing, JobStatus.aligning => true
  | JobStatus.aligning, JobStatus.diarizing => true
  | JobStatus.diarizing, JobStatus.awaiting_speakers => true
  | JobStatus.awaiting_speakers, JobStatus.saving => true
  | JobStatus.saving, JobStatus.generating_recap => true
  | JobStatus.generating_recap, JobStatus.completed => true
  | JobStatus.saving, JobStatus.completed => true
  | a, JobStatus.failed => nonTerminal a
  | _, _ => false

/-- The statuses of a snapshot trace. -/
def statusesOf (l : List Snapshot) : List JobStatus :=
  l.map (fun s => s.status)

/-- Collapse consecutive duplicates: the sequence of state *changes* an
observer can distinguish. -/
def condense {α : Type} [DecidableEq α] : List α → List α
  | [] => []
  | [a] => [a]
  | a :: b :: rest =>
    if a = b then condense (b :: rest) else a :: condense (b :: rest)

/-! ## Concurrent `create_job`: the two locked sections interleaved

`create_job` acquires the lock twice: once for the admission check
(jobs.py lines 74-78) and, after releasing it, once more for the insert
(lines 90-92).  Each locked section is atomic, but between them another
call may run.  `raceRun` executes two calls on an empty manager under the
schedule check-A, check-B, insert-A, insert-B, reproducing each call's
control flow exactly (a call inserts if and only if its own check saw no
active job). -/

/-- What one `create_job` call returns to its caller. -/
inductive CallResult
  | admitted (job_id : String)
  | conflict
deriving DecidableEq

/-- The first locked section (jobs.py lines 74-78): `true` means the check
found an active job, so this call raises the conflict. -/
def createCheck (st : ManagerState) : Bool :=
  hasActiveJob st.jobs

/-- Two concurrent `create_job` calls on an empty manager, interleaved as
check-A, check-B, insert-A, insert-B. -/
def raceRun : ManagerState × CallResult × CallResult :=
  let st0 := ManagerState.initial
  let cA := createCheck st0
  let cB := createCheck st0
  let jobA := mkJob "aaaaaaaaaaaa" "a.wav" "Session A" "sessions/a" [] false 0
  let jobB := mkJob "bbbbbbbbbbbb" "b.wav" "Session B" "sessions/b" [] false 0
  let st1 := if cA then st0 else createInsert st0 "aaaaaaaaaaaa" jobA
  let st2 := if cB then st1 else createInsert st1 "bbbbbbbbbbbb" jobB
  (st2,
   if cA then CallResult.conflict else CallResult.admitted "aaaaaaaaaaaa",
   if cB then CallResult.conflict else CallResult.admitted "bbbbbbbbbbbb")

/-! ## `get_job` at the object-reference level (for the snapshot claim)

`get_job` executes `return self._jobs.get(job_id)`: the value handed to
the caller is the stored reference to the `Job` object itself — no copy is
taken (and `list_jobs`'s `list(self._jobs.values())` copies only the list,
not the records).  To talk about what a caller's mutation through that
reference does, the job table is modelled at the reference level: a heap
of `Job` objects addressed by `Nat`, and `self._jobs` mapping ids to
addresses. -/

def heapGet (heap : List (Nat × Job)) (a : Nat) : Option Job :=
  dictGet heap a

def heapSet (heap : List (Nat × Job)) (a : Nat) (j : Job) :
    List (Nat × Job) :=
  heap.map (fun p => if p.1 == a then (a, j) else p)

/-- The job table at the reference level. -/
structure RefManager where
  heap : List (Nat × Job)
  jobs : List (String × Nat)
deriving DecidableEq

/-- `get_job` (jobs.py lines 98-100) at the reference level: return the
stored reference, touching nothing. -/
def get_jobRef (st : RefManager) (job_id : String) : Option Nat :=
  dictGet st.jobs job_id

/-- A caller's `record.progress_message = v` on an object `get_job`
returned: a heap write at that address. -/
def setMessageThroughRef (st : RefManager) (a : Nat) (v : String) :
    RefManager :=
  { st with
      heap :=
        match heapGet st.heap a with
        | some j => heapSet st.heap a { j with progress_message := v }
        | none => st.heap }

/-- The scheduler's own current view of the record stored for `job_id`. -/
def storedRecord (st : RefManager) (job_id : String) : Option Job :=
  (get_jobRef st job_id).bind (fun a => heapGet st.heap a)

/-- A one-job manager at the reference level: the record for `"job0"`
lives at address 0. -/
def refState0 : RefManager :=
  { heap := [(0, mkJob "job0" "a.wav" "Session" "sessions/s" [] false 0)]
    jobs := [("job0", 0)] }

/-! ## The jobs-table / events-table correspondence -/

/-- Every id in the job table has a checkpoint event in the event table.
The two entries are inserted together inside one locked section
(jobs.py lines 90-92) and no operation ever removes either. -/
def eventsCoverJobs (st : ManagerState) : Bool :=
  st.jobs.all (fun p => st.speaker_events.any (fun q => q.1 == p.1))

/-- The worker's unguarded lookup `self._speaker_events[job.id]` before
waiting between the two phases (jobs.py line 140): `none` would be a
`KeyError`. -/
def workerEventLookup (st : ManagerState) (job_id : String) : Option Bool :=
  dictGet st.speaker_events job_id

/-- The status sequence the progress callback writes, as a function of the
previous status and the received stage names
(`_STAGE_MAP.get(stage, job.status)` at each call). -/
def stageStatuses (prev : JobStatus) : List String → List JobStatus
  | [] => []
  | s :: rest =>
    (stageMap s).getD prev :: stageStatuses ((stageMap s).getD prev) rest

/-! ## Association-list lemmas for the dictionary embedding -/

section DictLemmas

variable {κ α : Type} [BEq κ] [LawfulBEq κ]

theorem dictGet_cons (p : κ × α) (l : List (κ × α)) (k : κ) :
    dictGet (p :: l) k = if p.1 == k then some p.2 else dictGet l k := by
  by_cases h : p.1 == k <;> simp [dictGet, List.find?_cons, h]

theorem dictGet_isSome_any (l : List (κ × α)) (k : κ) :
    (dictGet l k).isSome = l.any (fun p => p.1 == k) := by
  induction l with
  | nil => rfl
  | cons p rest ih =>
    rw [dictGet_cons]
    by_cases h : p.1 == k <;> simp [h, ih]

theorem dictGet_map_overwrite (l : List (κ × α)) (k : κ) (v : α)
    (h : l.any (fun p => p.1 == k) = true) :
    dictGet (l.map (fun p => if p.1 == k then (k, v) else p)) k = some v := by
  induction l with
  | nil => simp at h
  | cons p rest ih =>
    by_cases hp : p.1 = k
    · simp [dictGet_cons, hp]
    · have hrest : rest.any (fun p => p.1 == k) = true := by
        simp only [List.any_cons] at h
        rcases Bool.or_eq_true_iff.mp h with h1 | h2
        · exact absurd (by simpa using h1) hp
        · exact h2
      simp [dictGet_cons, hp]
      simpa using ih hrest

theorem dictGet_append_new (l : List (κ × α)) (k : κ) (v : α)
    (h : l.any (fun p => p.1 == k) = false) :
    dictGet (l ++ [(k, v)]) k = some v := by
  induction l with
  | nil => simp [dictGet_cons]
  | cons p rest ih =>
    simp only [List.any_cons, Bool.or_eq_false_iff] at h
    obtain ⟨hp, hrest⟩ := h
    rw [List.cons_append, dictGet_cons]
    simp only [hp, if_false]
    exact ih hrest

theorem dictGet_dictInsert_self (l : List (κ × α)) (k : κ) (v : α) :
    dictGet (dictInsert l k v) k = some v := by
  unfold dictInsert
  by_cases hany : l.any (fun p => p.1 == k) = true
  · simp only [hany, if_true]
    exact dictGet_map_overwrite l k v hany
  · have h' : l.any (fun p => p.1 == k) = false := by
      exact Bool.eq_false_iff.mpr hany
    simp only [h', Bool.false_eq_true, if_false]
    exact dictGet_append_new l k v h'

theorem dictGet_map_overwrite_ne (l : List (κ × α)) (k : κ)
    (k2 : κ) (v : α) (hne : k2 ≠ k) :
    dictGet (l.map (fun p => if p.1 == k then (k, v) else p)) k2 =
      dictGet l k2 := by
  induction l with
  | nil => rfl
  | cons p rest ih =>
    have hne2 : k ≠ k2 := fun h => hne h.symm
    by_cases hp : p.1 = k
    · have hp2 : p.1 ≠ k2 := by rw [hp]; exact hne2
      simp [dictGet_cons, hp, hne2, hp2]
      simpa using ih
    · by_cases hp2 : p.1 = k2
      · simp [dictGet_cons, hp, hp2, hne]
      · simp [dictGet_cons, hp, hp2]
        simpa using ih

theorem dictGet_append_ne (l : List (κ × α)) (k : κ) (k2 : κ)
    (v : α) (hne : k2 ≠ k) :
    dictGet (l ++ [(k, v)]) k2 = dictGet l k2 := by
  induction l with
  | nil =>
    have hk : (k == k2) = false := by
      simp only [beq_eq_false_iff_ne, ne_eq]
      exact fun h => hne h.symm
    simp [dictGet_cons, hk, dictGet]
  | cons p rest ih =>
    rw [List.cons_append, dictGet_cons, dictGet_cons]
    by_cases hp : p.1 == k2
    · simp [hp]
    · simp only [hp, if_false]
      exact ih

theorem dictGet_dictInsert_ne (l : List (κ × α)) (k : κ)
    (k2 : κ) (v : α) (hne : k2 ≠ k) :
    dictGet (dictInsert l k v) k2 = dictGet l k2 := by
  unfold dictInsert
  by_cases hany : l.any (fun p => p.1 == k) = true
  · simp only [hany, if_true]
    exact dictGet_map_overwrite_ne l k k2 v hne
  · have h' : l.any (fun p => p.1 == k) = false := Bool.eq_false_iff.mpr hany
    simp only [h', Bool.false_eq_true, if_false]
    exact dictGet_append_ne l k k2 v hne

theorem dictInsert_length_new (l : List (κ × α)) (k : κ) (v : α)
    (h : l.any (fun p => p.1 == k) = false) :
    (dictInsert l k v).length = l.length + 1 := by
  unfold dictInsert
  simp [h]

end DictLemmas

/-! ## Event-table lemmas -/

theorem eventSet_present (l : List (String × Bool)) (k : String)
    (h : l.any (fun p => p.1 == k) = true) :
    eventSet l k = some (l.map (fun p => if p.1 == k then (k, true) else p)) := by
  unfold eventSet
  simp [h]

theorem eventSet_absent (l : List (String × Bool)) (k : String)
    (h : l.any (fun p => p.1 == k) = false) :
    eventSet l k = none := by
  unfold eventSet
  simp [h]

theorem eventsCoverJobs_iff (st : ManagerState) :
    eventsCoverJobs st = true ↔
      ∀ k, (dictGet st.jobs k).isSome = true →
        (dictGet st.speaker_events k).isSome = true := by
  unfold eventsCoverJobs
  rw [List.all_eq_true]
  constructor
  · intro h k hk
    rw [dictGet_isSome_any, List.any_eq_true] at hk
    obtain ⟨p, hp, hpk⟩ := hk
    have hpk2 : p.1 = k := by simpa using hpk
    rw [dictGet_isSome_any]
    have := h p hp
    simpa [hpk2] using this
  · intro h p hp
    have hj : (dictGet st.jobs p.1).isSome = true := by
      rw [dictGet_isSome_any, List.any_eq_true]
      exact ⟨p, hp, by simp⟩
    have := h p.1 hj
    rw [dictGet_isSome_any] at this
    simpa using this

/-! ## Worker-trace lemmas -/

theorem statuses_cbSnaps (s : Snapshot) (evs : List ProgressEvent) :
    (cbSnaps s evs).map (fun x => x.status) =
      stageStatuses s.status (evs.map (fun e => e.stage)) := by
  induction evs generalizing s with
  | nil => rfl
  | cons e rest ih =>
    simp only [cbSnaps, List.map_cons, stageStatuses, List.cons.injEq]
    exact ⟨rfl, ih (applyCallback s e)⟩

theorem percents_cbSnaps (s : Snapshot) (evs : List ProgressEvent) :
    (cbSnaps s evs).map (fun x => x.progress_percent) =
      evs.map (fun e => e.percent) := by
  induction evs generalizing s with
  | nil => rfl
  | cons e rest ih =>
    simp only [cbSnaps, List.map_cons, List.cons.injEq]
    exact ⟨rfl, ih (applyCallback s e)⟩

theorem cbSnaps_transcript (s : Snapshot) (evs : List ProgressEvent) :
    ∀ x ∈ cbSnaps s evs, x.transcript = s.transcript := by
  induction evs generalizing s with
  | nil => intro x hx; simp [cbSnaps] at hx
  | cons e rest ih =>
    intro x hx
    simp only [cbSnaps, List.mem_cons] at hx
    rcases hx with hx | hx
    · subst hx; rfl
    · exact ih (applyCallback s e) x hx

theorem cbSnaps_percent_mem (s : Snapshot) (evs : List ProgressEvent) :
    ∀ x ∈ cbSnaps s evs, ∃ e ∈ evs, x.progress_percent = e.percent := by
  induction evs generalizing s with
  | nil => intro x hx; simp [cbSnaps] at hx
  | cons e rest ih =>
    intro x hx
    simp only [cbSnaps, List.mem_cons] at hx
    rcases hx with hx | hx
    · exact ⟨e, by simp, by subst hx; rfl⟩
    · obtain ⟨e2, he2, hp⟩ := ih (applyCallback s e) x hx
      exact ⟨e2, by simp [he2], hp⟩

theorem stageMap_not_failed (s : String) (st : JobStatus)
    (h : stageMap s = some st) : st ≠ JobStatus.failed := by
  unfold stageMap at h
  split_ifs at h <;> injection h with h2 <;> subst h2 <;> decide

theorem stageStatuses_not_failed (prev : JobStatus) (ss : List String)
    (hprev : prev ≠ JobStatus.failed) :
    ∀ x ∈ stageStatuses prev ss, x ≠ JobStatus.failed := by
  induction ss generalizing prev with
  | nil => intro x hx; simp [stageStatuses] at hx
  | cons s rest ih =>
    intro x hx
    have hnxt : (stageMap s).getD prev ≠ JobStatus.failed := by
      cases hsm : stageMap s with
      | none => simpa using hprev
      | some st => simpa using stageMap_not_failed s st hsm
    simp only [stageStatuses, List.mem_cons] at hx
    rcases hx with hx | hx
    · subst hx; exact hnxt
    · exact ih _ hnxt x hx

theorem statuses_runSnaps (evs : List ProgressEvent) (t : Transcript)
    (smp : Samples) (skip_recap : Bool) :
    (runSnaps evs t smp skip_recap).map (fun x => x.status) =
      JobStatus.queued ::
        stageStatuses JobStatus.queued (evs.map (fun e => e.stage))
      ++ JobStatus.awaiting_speakers ::
        (if skip_recap then [JobStatus.saving, JobStatus.completed]
         else [JobStatus.saving, JobStatus.generating_recap,
               JobStatus.completed]) := by
  unfold runSnaps
  cases skip_recap <;>
    simp [phase2Snaps, savingSnap, recapSnap, completedSnap, awaitSnap,
      statuses_cbSnaps, snapInit]

theorem percents_runSnaps (evs : List ProgressEvent) (t : Transcript)
    (smp : Samples) (skip_recap : Bool) :
    (runSnaps evs t smp skip_recap).map (fun x => x.progress_percent) =
      (0 : Int) :: evs.map (fun e => e.percent)
      ++ (95 : Int) ::
        (if skip_recap then [(96 : Int), 100] else [(96 : Int), 97, 100]) := by
  unfold runSnaps
  cases skip_recap <;>
    simp [phase2Snaps, savingSnap, recapSnap, completedSnap, awaitSnap,
      percents_cbSnaps, snapInit]

theorem statuses_failSnaps (evs : List ProgressEvent) (t : Transcript)
    (smp : Samples) (skip_recap : Bool) (k : Nat) (ename : String)
    (emsg : String) (tb : String) :
    (failSnaps evs t smp skip_recap k ename emsg tb).map (fun x => x.status) =
      ((runSnaps evs t smp skip_recap).map (fun x => x.status)).take k
        ++ [JobStatus.failed] := by
  unfold failSnaps failSnap
  simp [List.map_take]

/-! ## Claim theorems -/

/-- **C8**: `apply_speaker_names` gives each segment whose anonymous label
(the `speaker` field, defaulting to `"UNKNOWN"` when absent) is a key of
the speaker map that key's display name as its `speaker_name`, and gives
each segment whose label is absent from the map its own label back — the
identity default; the segment's other fields are untouched. -/
theorem apply_speaker_names_spec (t : Transcript) (m : SpeakerMap) (i : Nat)
    (h : i < t.segments.length) :
    (∀ name,
      dictGet m (((t.segments.getD i {}).speaker).getD "UNKNOWN") = some name →
      ((apply_speaker_names t m).segments.getD i {}).speaker_name =
        some name) ∧
    (dictGet m (((t.segments.getD i {}).speaker).getD "UNKNOWN") = none →
      ((apply_speaker_names t m).segments.getD i {}).speaker_name =
        some (((t.segments.getD i {}).speaker).getD "UNKNOWN")) ∧
    ((apply_speaker_names t m).segments.getD i {}).speaker =
      (t.segments.getD i {}).speaker ∧
    ((apply_speaker_names t m).segments.getD i {}).text =
      (t.segments.getD i {}).text ∧
    ((t.segments.getD i {}).speaker = none →
      ((apply_speaker_names t m).segments.getD i {}).speaker_name =
        some ((dictGet m "UNKNOWN").getD "UNKNOWN")) := by
  have hlen : i < ((apply_speaker_names t m).segments).length := by
    simpa [apply_speaker_names] using h
  rw [List.getD_eq_getElem t.segments {} h,
    List.getD_eq_getElem ((apply_speaker_names t m).segments) {} hlen]
  simp only [apply_speaker_names, List.getElem_map]
  refine ⟨?_, ?_, by trivial, by trivial, ?_⟩
  · intro name hname
    simp [hname]
  · intro hnone
    simp [hnone]
  · intro hsp
    simp [hsp]

/-- Witness for C8: a one-segment transcript whose label `"SPEAKER_00"`
is mapped to `"Alice"`. -/
theorem apply_speaker_names_spec_witness :
    ((apply_speaker_names
        { segments := [{ speaker := some "SPEAKER_00",
                         text := "Roll initiative." }] }
        [("SPEAKER_00", "Alice")]).segments.getD 0 {}).speaker_name =
      some "Alice" :=
  (apply_speaker_names_spec
    { segments := [{ speaker := some "SPEAKER_00",
                     text := "Roll initiative." }] }
    [("SPEAKER_00", "Alice")] 0 (by decide)).1 "Alice" (by decide)

/-- **C1** (the code violates the claim): interleaving two `create_job`
calls as check-A, check-B, insert-A, insert-B — possible because the lock
is released between the admission check and the insert — admits both calls
and leaves two jobs in the table, both in the non-terminal state `QUEUED`,
against the class's own "One job at a time" contract. -/
theorem create_job_race_admits_two :
    raceRun.2.1 = CallResult.admitted "aaaaaaaaaaaa" ∧
    raceRun.2.2 = CallResult.admitted "bbbbbbbbbbbb" ∧
    raceRun.1.jobs.length = 2 ∧
    hasActiveJob raceRun.1.jobs = true ∧
    (∀ p ∈ raceRun.1.jobs, p.2.status = JobStatus.queued) := by
  refine ⟨rfl, rfl, rfl, rfl, ?_⟩
  decide

/-- **C6** (counterexample): `get_job` hands back the stored reference, so
a caller writing a field through the returned value changes the
scheduler's stored record — the claim that the returned value is a
copy/snapshot that the caller cannot mutate back is false. -/
theorem get_job_alias_counterexample :
    get_jobRef refState0 "job0" = some 0 ∧
    storedRecord (setMessageThroughRef refState0 0 "mutated by caller")
        "job0" ≠
      storedRecord refState0 "job0" := by
  refine ⟨rfl, ?_⟩
  decide

/-- **C6** (amended): `get_job` is a read with no side effects and returns
absence exactly when the id is unknown, but what it returns is the stored
record itself (a shared reference, not a copy): the scheduler's view of
the record is the very heap cell the caller received, so a caller mutation
through the returned value becomes the scheduler's stored state. -/
theorem get_job_reference_spec (st : RefManager) (job_id : String) :
    (get_jobRef st job_id = none ↔ dictGet st.jobs job_id = none) ∧
    (∀ a, get_jobRef st job_id = some a →
      storedRecord st job_id = heapGet st.heap a) ∧
    (∀ a j v, get_jobRef st job_id = some a → heapGet st.heap a = some j →
      storedRecord (setMessageThroughRef st a v) job_id =
        some { j with progress_message := v }) := by
  refine ⟨Iff.rfl, ?_, ?_⟩
  · intro a ha
    unfold storedRecord
    rw [ha]
    rfl
  · intro a j v ha hj
    have hpres : st.heap.any (fun p => p.1 == a) = true := by
      have hs : (dictGet st.heap a).isSome = true := by
        rw [show dictGet st.heap a = some j from hj]
        rfl
      rwa [dictGet_isSome_any] at hs
    unfold storedRecord setMessageThroughRef
    rw [hj]
    have hga : get_jobRef
        { st with heap := heapSet st.heap a { j with progress_message := v } }
        job_id = some a := ha
    rw [hga]
    simp only [Option.bind_some]
    unfold heapSet heapGet
    exact dictGet_map_overwrite st.heap a _ hpres

/-- Witness for C6 (amended): on the one-job reference state, a caller
write through the returned reference lands in the scheduler's table. -/
theorem get_job_reference_spec_witness :
    storedRecord (setMessageThroughRef refState0 0 "edited") "job0" =
      some { mkJob "job0" "a.wav" "Session" "sessions/s" [] false 0 with
             progress_message := "edited" } :=
  (get_job_reference_spec refState0 "job0").2.2 0
    (mkJob "job0" "a.wav" "Session" "sessions/s" [] false 0) "edited" rfl rfl

/-- **C2**: a sequential `create_job` raises the admission conflict
exactly when some job in the table is non-terminal; otherwise it admits:
the returned state holds, under the returned (fresh) id, a new record in
state `QUEUED` carrying the call's inputs, plus an unset checkpoint event,
leaves every other id's record and the speaker maps untouched, and — the
id being fresh — grows the table by exactly one record. -/
theorem create_job_spec (st : ManagerState) (job_id : String)
    (audio_path : String) (session_name : String) (session_dir : String)
    (config : Config) (skip_recap : Bool) (now : Nat) :
    ((∃ e, create_job st job_id audio_path session_name session_dir config
        skip_recap now = Except.error e) ↔
      ∃ p ∈ st.jobs, nonTerminal p.2.status = true) ∧
    ((∀ p ∈ st.jobs, nonTerminal p.2.status = false) →
      ∃ st2,
        create_job st job_id audio_path session_name session_dir config
            skip_recap now = Except.ok (st2, job_id) ∧
        get_job st2 job_id =
          some (mkJob job_id audio_path session_name session_dir config
            skip_recap now) ∧
        (mkJob job_id audio_path session_name session_dir config skip_recap
            now).status = JobStatus.queued ∧
        dictGet st2.speaker_events job_id = some false ∧
        (∀ k2, k2 ≠ job_id → get_job st2 k2 = get_job st k2) ∧
        (get_job st job_id = none →
          st2.jobs.length = st.jobs.length + 1) ∧
        st2.speaker_maps = st.speaker_maps) := by
  constructor
  · constructor
    · rintro ⟨e, he⟩
      unfold create_job at he
      by_cases hact : hasActiveJob st.jobs = true
      · unfold hasActiveJob at hact
        exact List.any_eq_true.mp hact
      · rw [if_neg (by simpa using hact)] at he
        cases he
    · rintro ⟨p, hp, hnt⟩
      have hact : hasActiveJob st.jobs = true :=
        List.any_eq_true.mpr ⟨p, hp, hnt⟩
      exact ⟨conflictMsg, by unfold create_job; rw [if_pos hact]⟩
  · intro hall
    have hact : hasActiveJob st.jobs = false := by
      unfold hasActiveJob
      rw [Bool.eq_false_iff]
      intro habs
      obtain ⟨p, hp, hnt⟩ := List.any_eq_true.mp habs
      rw [hall p hp] at hnt
      cases hnt
    refine ⟨createInsert st job_id
      (mkJob job_id audio_path session_name session_dir config skip_recap
        now), ?_, ?_, rfl, ?_, ?_, ?_, rfl⟩
    · unfold create_job
      rw [if_neg (by simp [hact])]
    · unfold get_job createInsert
      exact dictGet_dictInsert_self st.jobs job_id _
    · unfold createInsert
      exact dictGet_dictInsert_self st.speaker_events job_id false
    · intro k2 hk2
      unfold get_job createInsert
      exact dictGet_dictInsert_ne st.jobs job_id k2 _ hk2
    · intro hnone
      unfold createInsert
      apply dictInsert_length_new
      have hs : (dictGet st.jobs job_id).isSome = false := by
        rw [show dictGet st.jobs job_id = none from hnone]
        rfl
      rwa [dictGet_isSome_any] at hs

/-- Witness for C2: on the empty manager the admission succeeds and the
new record is stored in `QUEUED` under the returned id. -/
theorem create_job_spec_witness :
    ∃ st2,
      create_job ManagerState.initial "j1" "a.wav" "S" "sessions/s" [] false
          0 = Except.ok (st2, "j1") ∧
      get_job st2 "j1" =
        some (mkJob "j1" "a.wav" "S" "sessions/s" [] false 0) := by
  obtain ⟨st2, h1, h2, _⟩ :=
    (create_job_spec ManagerState.initial "j1" "a.wav" "S" "sessions/s" []
      false 0).2 (by intro p hp; cases hp)
  exact ⟨st2, h1, h2⟩

/-- **C4**: on any state satisfying the jobs/events correspondence (which
every reachable state does, see the C10 theorem), `set_speaker_names`
raises the invalid-state condition exactly when the job is missing or not
currently `AWAITING_SPEAKERS` — the `raise` precedes every mutation, so a
rejected call changes nothing — and on success records the speaker map,
updates the job's skip-recap flag, sets the job's checkpoint event, and
touches no other id's entries.  The reject-when-past-checkpoint direction
is precisely the non-idempotency: a second call after the job moved on
fails. -/
theorem set_speaker_names_spec (st : ManagerState) (job_id : String)
    (speaker_map : SpeakerMap) (skip_recap : Bool)
    (hcov : eventsCoverJobs st = true) :
    ((∃ e, set_speaker_names st job_id speaker_map skip_recap =
        Except.error e) ↔
      (get_job st job_id = none ∨
        ∃ job, get_job st job_id = some job ∧
          job.status ≠ JobStatus.awaiting_speakers)) ∧
    (∀ job, get_job st job_id = some job →
      job.status = JobStatus.awaiting_speakers →
      ∃ st2,
        set_speaker_names st job_id speaker_map skip_recap =
          Except.ok st2 ∧
        dictGet st2.speaker_maps job_id = some speaker_map ∧
        get_job st2 job_id = some { job with skip_recap := skip_recap } ∧
        dictGet st2.speaker_events job_id = some true ∧
        (∀ k2, k2 ≠ job_id →
          get_job st2 k2 = get_job st k2 ∧
          dictGet st2.speaker_events k2 = dictGet st.speaker_events k2 ∧
          dictGet st2.speaker_maps k2 = dictGet st.speaker_maps k2)) := by
  cases hjob : dictGet st.jobs job_id with
  | none =>
    constructor
    · constructor
      · intro _
        exact Or.inl hjob
      · intro _
        refine ⟨invalidStateMsg job_id, ?_⟩
        unfold set_speaker_names
        rw [hjob]
    · intro job hj
      rw [show get_job st job_id = dictGet st.jobs job_id from rfl, hjob]
        at hj
      cases hj
  | some job0 =>
    by_cases hstat : job0.status = JobStatus.awaiting_speakers
    · have hjobs_some : (dictGet st.jobs job_id).isSome = true := by
        rw [hjob]; rfl
      have hev_some := (eventsCoverJobs_iff st).mp hcov job_id hjobs_some
      have hev_any : st.speaker_events.any (fun p => p.1 == job_id) = true :=
        by rwa [dictGet_isSome_any] at hev_some
      have hok : set_speaker_names st job_id speaker_map skip_recap =
          Except.ok
            { st with
              speaker_maps := dictInsert st.speaker_maps job_id speaker_map
              jobs := dictInsert st.jobs job_id
                { job0 with skip_recap := skip_recap }
              speaker_events := st.speaker_events.map
                (fun p => if p.1 == job_id then (job_id, true) else p) } := by
        unfold set_speaker_names
        rw [hjob, eventSet_present st.speaker_events job_id hev_any]
        have hcond : (job0.status != JobStatus.awaiting_speakers) = false := by
          simp [hstat]
        simp [hcond]
      constructor
      · constructor
        · rintro ⟨e, he⟩
          rw [hok] at he
          cases he
        · rintro (hnone | ⟨job, hj, hne⟩)
          · rw [show get_job st job_id = dictGet st.jobs job_id from rfl,
              hjob] at hnone
            cases hnone
          · rw [show get_job st job_id = dictGet st.jobs job_id from rfl,
              hjob] at hj
            injection hj with hj2
            exact absurd (hj2 ▸ hstat) hne
      · intro job hj hstat2
        have hj0 : job0 = job := by
          rw [show get_job st job_id = dictGet st.jobs job_id from rfl,
            hjob] at hj
          injection hj
        subst hj0
        refine ⟨_, hok, ?_, ?_, ?_, ?_⟩
        · exact dictGet_dictInsert_self st.speaker_maps job_id speaker_map
        · unfold get_job
          exact dictGet_dictInsert_self st.jobs job_id _
        · exact dictGet_map_overwrite st.speaker_events job_id true hev_any
        · intro k2 hk2
          exact ⟨dictGet_dictInsert_ne st.jobs job_id k2 _ hk2,
            dictGet_map_overwrite_ne st.speaker_events job_id k2 true hk2,
            dictGet_dictInsert_ne st.speaker_maps job_id k2 speaker_map hk2⟩
    · have hbne : (job0.status != JobStatus.awaiting_speakers) = true := by
        simpa [bne_iff_ne] using hstat
      have herr : set_speaker_names st job_id speaker_map skip_recap =
          Except.error (invalidStateMsg job_id) := by
        unfold set_speaker_names
        rw [hjob]
        simp [hbne]
      constructor
      · constructor
        · intro _
          exact Or.inr ⟨job0, hjob, hstat⟩
        · intro _
          exact ⟨invalidStateMsg job_id, herr⟩
      · intro job hj hstat2
        have hj0 : job0 = job := by
          rw [show get_job st job_id = dictGet st.jobs job_id from rfl,
            hjob] at hj
          injection hj
        exact absurd (hj0 ▸ hstat2) hstat

/-- Witness for C4: a manager holding one job in `AWAITING_SPEAKERS`
accepts the submission and sets the checkpoint event. -/
theorem set_speaker_names_spec_witness :
    ∃ st2,
      set_speaker_names
        { jobs := [("j1", { mkJob "j1" "a.wav" "S" "sessions/s" [] false 0
            with status := JobStatus.awaiting_speakers })]
          speaker_events := [("j1", false)]
          speaker_maps := [] }
        "j1" [("SPEAKER_00", "Alice")] false = Except.ok st2 ∧
      dictGet st2.speaker_maps "j1" = some [("SPEAKER_00", "Alice")] ∧
      dictGet st2.speaker_events "j1" = some true := by
  obtain ⟨st2, h1, h2, _, h4, _⟩ :=
    (set_speaker_names_spec
      { jobs := [("j1", { mkJob "j1" "a.wav" "S" "sessions/s" [] false 0
          with status := JobStatus.awaiting_speakers })]
        speaker_events := [("j1", false)]
        speaker_maps := [] }
      "j1" [("SPEAKER_00", "Alice")] false (by decide)).2
      ({ mkJob "j1" "a.wav" "S" "sessions/s" [] false 0
          with status := JobStatus.awaiting_speakers }) (by decide) rfl
  exact ⟨st2, h1, h2, h4⟩

/-- **C10**: every id in the job table has a checkpoint event — true
initially, preserved by both mutating operations (the two entries are
inserted together in `create_job`'s second locked section and never
removed) — so the unguarded event lookups, in `set_speaker_names` after
its existence/state check and in the worker before its wait, cannot raise
`KeyError`. -/
theorem events_cover_jobs_spec :
    eventsCoverJobs ManagerState.initial = true ∧
    (∀ st job_id audio_path session_name session_dir config skip_recap now
        st2 rid,
      eventsCoverJobs st = true →
      create_job st job_id audio_path session_name session_dir config
          skip_recap now = Except.ok (st2, rid) →
      eventsCoverJobs st2 = true) ∧
    (∀ st job_id speaker_map skip_recap st2,
      eventsCoverJobs st = true →
      set_speaker_names st job_id speaker_map skip_recap = Except.ok st2 →
      eventsCoverJobs st2 = true) ∧
    (∀ st job_id, eventsCoverJobs st = true →
      (get_job st job_id).isSome = true →
      eventSet st.speaker_events job_id ≠ none) ∧
    (∀ st job_id, eventsCoverJobs st = true →
      (get_job st job_id).isSome = true →
      (workerEventLookup st job_id).isSome = true) := by
  have hworker : ∀ (st : ManagerState) (job_id : String),
      eventsCoverJobs st = true → (get_job st job_id).isSome = true →
      (workerEventLookup st job_id).isSome = true := by
    intro st job_id hcov hjs
    exact (eventsCoverJobs_iff st).mp hcov job_id hjs
  refine ⟨rfl, ?_, ?_, ?_, hworker⟩
  · intro st job_id audio_path session_name session_dir config skip_recap now
      st2 rid hcov hok
    unfold create_job at hok
    by_cases hact : hasActiveJob st.jobs = true
    · rw [if_pos hact] at hok
      cases hok
    · rw [if_neg (by simpa using hact)] at hok
      injection hok with h2
      have hst2 : createInsert st job_id
          (mkJob job_id audio_path session_name session_dir config skip_recap
            now) = st2 := congrArg Prod.fst h2
      subst hst2
      rw [eventsCoverJobs_iff]
      intro k hk
      simp only [createInsert] at hk ⊢
      by_cases hkj : k = job_id
      · subst hkj
        rw [dictGet_dictInsert_self]
        rfl
      · rw [dictGet_dictInsert_ne st.jobs job_id k _ hkj] at hk
        rw [dictGet_dictInsert_ne st.speaker_events job_id k false hkj]
        exact (eventsCoverJobs_iff st).mp hcov k hk
  · intro st job_id speaker_map skip_recap st2 hcov hok
    unfold set_speaker_names at hok
    cases hjob : dictGet st.jobs job_id with
    | none =>
      rw [hjob] at hok
      simp at hok
    | some job0 =>
      rw [hjob] at hok
      by_cases hstat : job0.status = JobStatus.awaiting_speakers
      · have hjobs_some : (dictGet st.jobs job_id).isSome = true := by
          rw [hjob]; rfl
        have hev_any :
            st.speaker_events.any (fun p => p.1 == job_id) = true := by
          have := (eventsCoverJobs_iff st).mp hcov job_id hjobs_some
          rwa [dictGet_isSome_any] at this
        have hcond : (job0.status != JobStatus.awaiting_speakers) = false :=
          by simp [hstat]
        rw [eventSet_present st.speaker_events job_id hev_any] at hok
        simp only [hcond, Bool.false_eq_true, if_false] at hok
        simp only [Except.ok.injEq] at hok
        subst hok
        rw [eventsCoverJobs_iff]
        intro k hk
        simp only at hk ⊢
        by_cases hkj : k = job_id
        · subst hkj
          rw [show dictGet
              (st.speaker_events.map
                (fun p => if p.1 == k then (k, true) else p)) k = some true
            from dictGet_map_overwrite st.speaker_events k true hev_any]
          rfl
        · rw [dictGet_dictInsert_ne st.jobs job_id k _ hkj] at hk
          rw [dictGet_map_overwrite_ne st.speaker_events job_id k true hkj]
          exact (eventsCoverJobs_iff st).mp hcov k hk
      · have hcond : (job0.status != JobStatus.awaiting_speakers) = true := by
          simpa [bne_iff_ne] using hstat
        simp [hcond] at hok
  · intro st job_id hcov hjs
    have hev_any : st.speaker_events.any (fun p => p.1 == job_id) = true := by
      have := (eventsCoverJobs_iff st).mp hcov job_id hjs
      rwa [dictGet_isSome_any] at this
    rw [eventSet_present st.speaker_events job_id hev_any]
    simp

/-- Witness for C10: on a one-job manager the worker's event lookup
succeeds. -/
theorem events_cover_jobs_spec_witness :
    (workerEventLookup
      { jobs := [("j1", mkJob "j1" "a.wav" "S" "sessions/s" [] false 0)]
        speaker_events := [("j1", false)]
        speaker_maps := [] } "j1").isSome = true :=
  events_cover_jobs_spec.2.2.2.2
    { jobs := [("j1", mkJob "j1" "a.wav" "S" "sessions/s" [] false 0)]
      speaker_events := [("j1", false)]
      speaker_maps := [] } "j1" (by decide) (by decide)

/-! ## More trace lemmas, shared by the lifecycle / failure / payload
claims -/

theorem getLastD_concat {γ : Type} (l : List γ) (a : γ) (d : γ) :
    (l ++ [a]).getLastD d = a := by
  induction l generalizing d with
  | nil => rfl
  | cons x xs ih =>
    rw [List.cons_append, List.getLastD_cons]
    exact ih x

theorem mem_runSnaps_cases (evs : List ProgressEvent) (t : Transcript)
    (smp : Samples) (skip_recap : Bool) (s : Snapshot)
    (hs : s ∈ runSnaps evs t smp skip_recap) :
    s = snapInit ∨ s ∈ cbSnaps snapInit evs ∨
    s = awaitSnap ((cbSnaps snapInit evs).getLastD snapInit) t smp ∨
    s ∈ phase2Snaps (awaitSnap ((cbSnaps snapInit evs).getLastD snapInit) t
      smp) skip_recap := by
  unfold runSnaps at hs
  simp only [List.mem_cons, List.mem_append] at hs
  tauto

theorem mem_phase2_cases (sA : Snapshot) (skip_recap : Bool) (s : Snapshot)
    (hs : s ∈ phase2Snaps sA skip_recap) :
    s = savingSnap sA ∨
    (skip_recap = false ∧ s = recapSnap (savingSnap sA)) ∨
    s = completedSnap (if skip_recap then savingSnap sA
      else recapSnap (savingSnap sA)) := by
  cases skip_recap <;> simp [phase2Snaps] at hs <;> tauto

theorem runSnaps_status_not_failed (evs : List ProgressEvent)
    (t : Transcript) (smp : Samples) (skip_recap : Bool) :
    ∀ s ∈ runSnaps evs t smp skip_recap, s.status ≠ JobStatus.failed := by
  intro s hs
  rcases mem_runSnaps_cases evs t smp skip_recap s hs with h | h | h | h
  · subst h; decide
  · have hmem : s.status ∈
        stageStatuses JobStatus.queued (evs.map (fun e => e.stage)) := by
      rw [show stageStatuses JobStatus.queued (evs.map (fun e => e.stage)) =
          (cbSnaps snapInit evs).map (fun x => x.status)
        from (statuses_cbSnaps snapInit evs).symm]
      exact List.mem_map_of_mem _ h
    exact stageStatuses_not_failed JobStatus.queued _ (by decide) _ hmem
  · subst h; simp [awaitSnap]
  · rcases mem_phase2_cases _ skip_recap s h with h2 | ⟨_, h2⟩ | h2 <;>
      subst h2 <;> simp [savingSnap, recapSnap, completedSnap]

/-- **C9**: the stored transcript payload is `none` up to the end of
phase 1, becomes `some` exactly at the locked write that also stores the
sample set and moves the state to `AWAITING_SPEAKERS`, stays `some` only
through `SAVING` / `GENERATING_RECAP`, and is cleared in the same locked
write that sets `COMPLETED` — so every `COMPLETED` snapshot has a null
transcript payload. -/
theorem transcript_lifetime_spec (evs : List ProgressEvent) (t : Transcript)
    (smp : Samples) (skip_recap : Bool) :
    (∀ s ∈ runSnaps evs t smp skip_recap,
      s.status = JobStatus.completed → s.transcript = none) ∧
    (∀ s ∈ runSnaps evs t smp skip_recap,
      s.transcript ≠ none →
        (s.status = JobStatus.awaiting_speakers ∨
         s.status = JobStatus.saving ∨
         s.status = JobStatus.generating_recap)) ∧
    (awaitSnap ((cbSnaps snapInit evs).getLastD snapInit) t smp).transcript
      = some t ∧
    (awaitSnap ((cbSnaps snapInit evs).getLastD snapInit) t
      smp).speaker_samples = some smp ∧
    (awaitSnap ((cbSnaps snapInit evs).getLastD snapInit) t smp).status =
      JobStatus.awaiting_speakers ∧
    awaitSnap ((cbSnaps snapInit evs).getLastD snapInit) t smp ∈
      runSnaps evs t smp skip_recap := by
  refine ⟨?_, ?_, rfl, rfl, rfl, ?_⟩
  · intro s hs hcs
    rcases mem_runSnaps_cases evs t smp skip_recap s hs with h | h | h | h
    · subst h; rfl
    · exact cbSnaps_transcript snapInit evs s h
    · subst h; cases hcs
    · rcases mem_phase2_cases _ skip_recap s h with h2 | ⟨_, h2⟩ | h2 <;>
        subst h2
      · cases hcs
      · cases hcs
      · rfl
  · intro s hs hts
    rcases mem_runSnaps_cases evs t smp skip_recap s hs with h | h | h | h
    · subst h; exact absurd rfl hts
    · exact absurd (cbSnaps_transcript snapInit evs s h) hts
    · subst h; exact Or.inl rfl
    · rcases mem_phase2_cases _ skip_recap s h with h2 | ⟨_, h2⟩ | h2 <;>
        subst h2
      · exact Or.inr (Or.inl rfl)
      · exact Or.inr (Or.inr rfl)
      · exact absurd rfl hts
  · unfold runSnaps
    simp only [List.mem_cons, List.mem_append]
    tauto

/-- Witness for C9: on a concrete full pipeline run the `COMPLETED`
snapshot (the trace's last element) has a cleared transcript payload. -/
theorem transcript_lifetime_spec_witness :
    ((runSnaps
        (pipelineEvents "large-v3" "cuda" "float16" "a.wav" "" true)
        { segments := [{ speaker := some "SPEAKER_00", text := "Hi." }] }
        [("SPEAKER_00", 1)] false).getLastD snapInit).transcript = none := by
  refine (transcript_lifetime_spec
    (pipelineEvents "large-v3" "cuda" "float16" "a.wav" "" true)
    { segments := [{ speaker := some "SPEAKER_00", text := "Hi." }] }
    [("SPEAKER_00", 1)] false).1 _ ?_ ?_
  · show _ ∈ runSnaps (pipelineEvents "large-v3" "cuda" "float16" "a.wav" ""
      true) _ _ false
    decide
  · decide

/-- **C7**: whenever an exception interrupts the worker (after any number
`k` of its writes, in either phase), the failure handler's single locked
write puts the record in `FAILED` with an error field holding the
exception's type, description and traceback and a short failure message;
that write is the last — no snapshot before it is `FAILED` and none
follows — and a subsequent `create_job` against a table of only
`COMPLETED`/`FAILED` jobs is admitted, since `FAILED` counts as terminal
for admission. -/
theorem failure_handling_spec (evs : List ProgressEvent) (t : Transcript)
    (smp : Samples) (skip_recap : Bool) (k : Nat)
    (ename : String) (emsg : String) (tb : String) (hk1 : 1 ≤ k)
    (hk2 : k < (runSnaps evs t smp skip_recap).length) :
    ((failSnaps evs t smp skip_recap k ename emsg tb).getLastD
        snapInit).status = JobStatus.failed ∧
    ((failSnaps evs t smp skip_recap k ename emsg tb).getLastD
        snapInit).error = some (ename ++ ": " ++ emsg ++ "\n" ++ tb) ∧
    ((failSnaps evs t smp skip_recap k ename emsg tb).getLastD
        snapInit).progress_message = "Failed: " ++ emsg ∧
    ((failSnaps evs t smp skip_recap k ename emsg tb).map
      (fun x => x.status)).getLast? = some JobStatus.failed ∧
    (∀ s ∈ (failSnaps evs t smp skip_recap k ename emsg tb).dropLast,
      s.status ≠ JobStatus.failed) ∧
    (∀ st job_id audio_path session_name session_dir config skip2 now,
      (∀ p ∈ st.jobs, p.2.status = JobStatus.completed ∨
        p.2.status = JobStatus.failed) →
      create_job st job_id audio_path session_name session_dir config skip2
          now =
        Except.ok (createInsert st job_id
          (mkJob job_id audio_path session_name session_dir config skip2
            now), job_id)) := by
  have hshape : failSnaps evs t smp skip_recap k ename emsg tb =
      (runSnaps evs t smp skip_recap).take k ++
        [failSnap (((runSnaps evs t smp skip_recap).take k).getLastD
          snapInit) ename emsg tb] := rfl
  have hlast : (failSnaps evs t smp skip_recap k ename emsg tb).getLastD
      snapInit =
      failSnap (((runSnaps evs t smp skip_recap).take k).getLastD snapInit)
        ename emsg tb := by
    rw [hshape, getLastD_concat]
  refine ⟨?_, ?_, ?_, ?_, ?_, ?_⟩
  · rw [hlast]; rfl
  · rw [hlast]; rfl
  · rw [hlast]; rfl
  · rw [hshape, List.map_append]
    simp [failSnap]
  · intro s hs
    rw [hshape, List.dropLast_concat] at hs
    exact runSnaps_status_not_failed evs t smp skip_recap s
      (List.mem_of_mem_take hs)
  · intro st job_id audio_path session_name session_dir config skip2 now
      hterm
    have hact : hasActiveJob st.jobs = false := by
      unfold hasActiveJob
      rw [Bool.eq_false_iff]
      intro habs
      obtain ⟨p, hp, hnt⟩ := List.any_eq_true.mp habs
      rcases hterm p hp with h | h <;> rw [h] at hnt <;> cases hnt
    unfold create_job
    rw [if_neg (by simp [hact])]

/-- Witness for C7: a fault after the third write of a concrete run
leaves the record `FAILED` with the diagnostic error string, and the empty
manager then admits a new job. -/
theorem failure_handling_spec_witness :
    ((failSnaps (pipelineEvents "large-v3" "cpu" "int8" "a.wav" "" false)
        { segments := [] } [] false 3 "ValueError" "boom"
        "Traceback (most recent call last)").getLastD snapInit).status =
      JobStatus.failed ∧
    ((failSnaps (pipelineEvents "large-v3" "cpu" "int8" "a.wav" "" false)
        { segments := [] } [] false 3 "ValueError" "boom"
        "Traceback (most recent call last)").getLastD snapInit).error =
      some ("ValueError" ++ ": " ++ "boom" ++ "\n" ++
        "Traceback (most recent call last)") := by
  obtain ⟨h1, h2, _⟩ := failure_handling_spec
    (pipelineEvents "large-v3" "cpu" "int8" "a.wav" "" false)
    { segments := [] } [] false 3 "ValueError" "boom"
    "Traceback (most recent call last)" (by decide) (by decide)
  exact ⟨h1, h2⟩

/-! ## Order lemmas for the progress claim -/

theorem percent_le_of_chain (evs : List ProgressEvent)
    (hmono : List.Chain' (fun a b => a ≤ b) (evs.map (fun e => e.percent)))
    (hlast : ∀ h : evs ≠ [], (evs.getLast h).percent = 95) :
    ∀ e ∈ evs, e.percent ≤ 95 := by
  induction evs with
  | nil => intro e he; cases he
  | cons a rest ih =>
    cases rest with
    | nil =>
      intro e he
      rcases List.mem_cons.mp he with rfl | h2
      · exact le_of_eq (hlast (by simp))
      · cases h2
    | cons b rest2 =>
      rw [List.map_cons, List.map_cons, List.chain'_cons] at hmono
      obtain ⟨hab, hrest⟩ := hmono
      have hlast2 : ∀ h : (b :: rest2) ≠ [],
          ((b :: rest2).getLast h).percent = 95 := by
        intro h
        have h95 := hlast (by simp)
        rwa [List.getLast_cons h] at h95
      have ihb := ih (by rw [List.map_cons]; exact hrest) hlast2
      intro e he
      rcases List.mem_cons.mp he with rfl | h2
      · exact le_trans hab (ihb b (by simp))
      · exact ihb e h2

theorem chain_le_append_const (l : List Int) (c : Int) (tl : List Int)
    (hl : List.Chain' (fun a b => a ≤ b) l)
    (hbound : ∀ x ∈ l, x ≤ c)
    (htl : List.Chain' (fun a b => a ≤ b) (c :: tl)) :
    List.Chain' (fun a b => a ≤ b) (l ++ c :: tl) := by
  induction l with
  | nil => exact htl
  | cons a rest ih =>
    rw [List.cons_append]
    refine List.chain'_cons'.mpr ⟨?_, ?_⟩
    · intro y hy
      cases rest with
      | nil =>
        simp at hy
        subst hy
        exact hbound a (by simp)
      | cons b r2 =>
        simp at hy
        subst hy
        exact (List.chain'_cons.mp hl).1
    · exact ih (List.chain'_cons'.mp hl).2
        (fun x hx => hbound x (by simp [hx]))

/-- **C5**: assuming the pipeline's progress callbacks deliver
non-decreasing percents ending at 95 (from 0 up), the full observable
percent sequence of a job's run — 0 at creation, the callback values, 95
at `AWAITING_SPEAKERS`, 96 at `SAVING`, 97 at `GENERATING_RECAP` when not
skipped, 100 at `COMPLETED` — is non-decreasing and stays within 0–100;
readers serialize through the same lock, so this is the sequence any
reader observes. -/
theorem progress_monotone_spec (evs : List ProgressEvent) (t : Transcript)
    (smp : Samples) (skip_recap : Bool)
    (h0 : ∀ e ∈ evs, 0 ≤ e.percent)
    (hmono : List.Chain' (fun a b => a ≤ b) (evs.map (fun e => e.percent)))
    (hlast : ∀ h : evs ≠ [], (evs.getLast h).percent = 95) :
    List.Chain' (fun a b => a ≤ b)
      ((runSnaps evs t smp skip_recap).map (fun s => s.progress_percent)) ∧
    (∀ s ∈ runSnaps evs t smp skip_recap,
      0 ≤ s.progress_percent ∧ s.progress_percent ≤ 100) ∧
    (awaitSnap ((cbSnaps snapInit evs).getLastD snapInit) t
      smp).progress_percent = 95 ∧
    (∀ sA, (savingSnap sA).progress_percent = 96) ∧
    (∀ sA, (recapSnap sA).progress_percent = 97) ∧
    (∀ sA, (completedSnap sA).progress_percent = 100) := by
  have hle95 := percent_le_of_chain evs hmono hlast
  refine ⟨?_, ?_, rfl, fun _ => rfl, fun _ => rfl, fun _ => rfl⟩
  · rw [percents_runSnaps]
    apply chain_le_append_const
    · refine List.chain'_cons'.mpr ⟨?_, hmono⟩
      intro y hy
      cases evs with
      | nil => simp at hy
      | cons e r =>
        simp at hy
        subst hy
        exact h0 e (by simp)
    · intro x hx
      rcases List.mem_cons.mp hx with rfl | hx2
      · decide
      · obtain ⟨e, he, rfl⟩ := List.mem_map.mp hx2
        exact hle95 e he
    · cases skip_recap <;>
        norm_num [List.chain'_cons, List.chain'_singleton]
  · intro s hs
    rcases mem_runSnaps_cases evs t smp skip_recap s hs with h | h | h | h
    · subst h
      exact ⟨by decide, by decide⟩
    · obtain ⟨e, he, hp⟩ := cbSnaps_percent_mem snapInit evs s h
      rw [hp]
      exact ⟨h0 e he, le_trans (hle95 e he) (by decide)⟩
    · subst h
      constructor <;> simp [awaitSnap]
    · rcases mem_phase2_cases _ skip_recap s h with h2 | ⟨_, h2⟩ | h2 <;>
        subst h2 <;> constructor <;>
        simp [savingSnap, recapSnap, completedSnap]

/-- Witness for C5: the percent trace of a concrete full run (with
diarization) is non-decreasing. -/
theorem progress_monotone_spec_witness :
    List.Chain' (fun a b => a ≤ b)
      ((runSnaps (pipelineEvents "large-v3" "cuda" "float16" "a.wav" "" true)
          { segments := [] } [] false).map
        (fun s => s.progress_percent)) :=
  (progress_monotone_spec
    (pipelineEvents "large-v3" "cuda" "float16" "a.wav" "" true)
    { segments := [] } [] false (by decide)
    (by norm_num [pipelineEvents, List.chain'_cons, List.chain'_singleton])
    (fun _ => rfl)).1

/-- **C3**: with the progress sink fed the documented stage sequence, the
distinct states a job passes through in a successful run are exactly the
spec's forward path — `GENERATING_RECAP` present iff the effective
skip-recap flag is off, `FAILED` never observed — and every consecutive
pair is an edge of the lifecycle graph; in a run interrupted by an
exception at any point, the condensed state sequence is again a path of
graph edges, ending in `FAILED`, which is entered from a non-terminal
state and is the final state (no transition ever leaves it). -/
theorem lifecycle_spec (evs : List ProgressEvent) (t : Transcript)
    (smp : Samples) (skip_recap : Bool)
    (hdoc : evs.map (fun e => e.stage) = documentedStages) :
    condense ((runSnaps evs t smp skip_recap).map (fun x => x.status)) =
      successPath skip_recap ∧
    List.Chain' (fun a b => edge a b = true)
      (condense ((runSnaps evs t smp skip_recap).map (fun x => x.status))) ∧
    (JobStatus.generating_recap ∈
        condense ((runSnaps evs t smp skip_recap).map (fun x => x.status)) ↔
      skip_recap = false) ∧
    JobStatus.failed ∉
      (runSnaps evs t smp skip_recap).map (fun x => x.status) ∧
    (∀ k ename emsg tb, 1 ≤ k →
      k < (runSnaps evs t smp skip_recap).length →
      List.Chain' (fun a b => edge a b = true)
        (condense ((failSnaps evs t smp skip_recap k ename emsg tb).map
          (fun x => x.status))) ∧
      ((failSnaps evs t smp skip_recap k ename emsg tb).map
        (fun x => x.status)).getLast? = some JobStatus.failed ∧
      (∀ s ∈ (failSnaps evs t smp skip_recap k ename emsg tb).dropLast,
        s.status ≠ JobStatus.failed)) := by
  have hL : (runSnaps evs t smp skip_recap).map (fun x => x.status) =
      [JobStatus.queued, JobStatus.loading_model, JobStatus.loading_audio,
       JobStatus.transcribing, JobStatus.aligning, JobStatus.diarizing,
       JobStatus.awaiting_speakers, JobStatus.awaiting_speakers,
       JobStatus.saving] ++
      (if skip_recap then [JobStatus.completed]
       else [JobStatus.generating_recap, JobStatus.completed]) := by
    rw [statuses_runSnaps, hdoc]
    cases skip_recap <;> rfl
  refine ⟨?_, ?_, ?_, ?_, ?_⟩
  · rw [hL]
    cases skip_recap <;> rfl
  · rw [hL]
    cases skip_recap <;>
      simp [condense, List.chain'_cons, List.chain'_singleton, edge]
  · rw [hL]
    cases skip_recap <;> decide
  · rw [hL]
    cases skip_recap <;> decide
  · intro k ename emsg tb hk1 hk2
    have hF : (failSnaps evs t smp skip_recap k ename emsg tb).map
        (fun x => x.status) =
        (((runSnaps evs t smp skip_recap).map (fun x => x.status)).take k)
          ++ [JobStatus.failed] :=
      statuses_failSnaps evs t smp skip_recap k ename emsg tb
    refine ⟨?_, ?_, ?_⟩
    · have hk2b : k < (if skip_recap then 10 else 11) := by
        have hlm :
            ((runSnaps evs t smp skip_recap).map (fun x => x.status)).length
              = (runSnaps evs t smp skip_recap).length :=
          List.length_map _ _
        rw [← hlm, hL] at hk2
        cases skip_recap <;> simpa using hk2
      rw [hF, hL]
      cases skip_recap
      · simp only [Bool.false_eq_true, if_false] at hk2b ⊢
        simp only [List.cons_append, List.nil_append]
        interval_cases k <;>
          simp [condense, List.chain'_cons, List.chain'_singleton, edge,
            nonTerminal]
      · simp only [if_true] at hk2b ⊢
        simp only [List.cons_append, List.nil_append]
        interval_cases k <;>
          simp [condense, List.chain'_cons, List.chain'_singleton, edge,
            nonTerminal]
    · rw [hF]
      exact List.getLast?_concat _
    · intro s hs
      rw [show failSnaps evs t smp skip_recap k ename emsg tb =
          (runSnaps evs t smp skip_recap).take k ++
            [failSnap (((runSnaps evs t smp skip_recap).take k).getLastD
              snapInit) ename emsg tb] from rfl,
        List.dropLast_concat] at hs
      exact runSnaps_status_not_failed evs t smp skip_recap s
        (List.mem_of_mem_take hs)

/-- Witness for C3: the condensed state sequence of a concrete documented
run (diarization on, recap on) is the full forward path. -/
theorem lifecycle_spec_witness :
    condense ((runSnaps
        (pipelineEvents "large-v3" "cuda" "float16" "a.wav" "" true)
        { segments := [] } [] false).map (fun x => x.status)) =
      successPath false :=
  (lifecycle_spec
    (pipelineEvents "large-v3" "cuda" "float16" "a.wav" "" true)
    { segments := [] } [] false (by decide)).1
